import Mathlib

/-!
Verification of the SafeFamily rule scheduler and its cross-process
coordination layer (`src/safe_family/rules/scheduler.py`).

The Python module is shallowly embedded: pure control flow becomes Lean
functions, module-level mutable state becomes explicit state records passed
and returned, database effects (advisory locks, LISTEN/NOTIFY, table reads
and writes) become operations on explicit backend-state values, and
exception paths become `Option`/branch results.  Timestamps in the
archival sweep are integers counting microseconds, the precision of the
underlying DateTime column; clock values in the overdue notifier carry an
ISO calendar-date string plus hour and minute, which is exactly the
granularity that code path inspects.
-/

namespace SafeFamily

/-! ## Job execution wrapper (`_wrap_job`, scheduler.py lines 171-182)

The wrapped callable consults two boolean-returning collaborators —
`_ensure_scheduler_leader()` and `_ensure_job_lock(job_id)` — and possibly
the job body.  The embedding takes the collaborators' answers as inputs and
additionally returns the ordered trace of calls the wrapper made, so that
"fn was never invoked" is a statement about the returned trace. -/

/-- One observable call made by the wrapped callable. -/
inductive WrapEvent where
  | acquireLeadership
  | tryJobLock (jobId : String)
  | callFn
deriving DecidableEq, Repr

/-- Result of running a wrapped job: the `_JOB_SKIPPED` sentinel, a normal
return value, or a propagated exception. -/
inductive JobOutcome (E A : Type) where
  | skipped
  | ok (a : A)
  | err (e : E)
deriving DecidableEq, Repr

/-- Embedding of the closure returned by `_wrap_job(job_id, func)`
(scheduler.py lines 174-180).  `leader_ok` is the answer
`_ensure_scheduler_leader()` would give, `lock_ok` the answer
`_ensure_job_lock(job_id)` would give, and `fn` the outcome the job body
would produce if invoked.  Returns the wrapper's result together with the
trace of calls it actually performed. -/
def wrap_job_run {E A : Type} (jobId : String) (leader_ok lock_ok : Bool)
    (fn : Except E A) : JobOutcome E A × List WrapEvent :=
  let log : List WrapEvent := [WrapEvent.acquireLeadership]
  if !leader_ok then (JobOutcome.skipped, log)
  else
    let log := log ++ [WrapEvent.tryJobLock jobId]
    if !lock_ok then (JobOutcome.skipped, log)
    else
      let log := log ++ [WrapEvent.callFn]
      match fn with
      | Except.ok a => (JobOutcome.ok a, log)
      | Except.error e => (JobOutcome.err e, log)

/-! ## Change-notification listener (`_listen_once`, scheduler.py lines 199-222)

The drain loop pops pending notifications in order; a payload equal to this
process's `_SCHEDULER_INSTANCE_ID` is skipped, any other payload triggers a
`load_schedules()` call.  The embedding returns the payloads that caused a
reload, in order. -/

/-- Embedding of the notification drain loop of `_listen_once`
(scheduler.py lines 214-219): given this process's instance id and the
queued payloads, return the payloads for which `load_schedules()` ran. -/
def listen_drain (instance_id : String) : List String → List String
  | [] => []
  | p :: rest =>
    if p = instance_id then listen_drain instance_id rest
    else p :: listen_drain instance_id rest

/-! ## Reload (`load_schedules`, scheduler.py lines 319-401)

`load_schedules` removes every job, re-reads the rule rows with
`enabled = TRUE`, registers one cron job per row whose `rule_name` is a key
of `RULE_FUNCTIONS` (job id `rule_<row id>`), unconditionally registers the
four built-in jobs, and finally calls `_release_unused_job_locks` with the
accumulated `active_job_ids` set.  The embedding records the registered
jobs, the active-id set, the warnings logged while resolving rule names,
and which cached job-lock leases were closed. -/

/-- One row of the `schedule_rules` table.  `start_time` is kept as an
hour/minute pair (the only fields the scheduler reads from it);
`day_of_week` is `none` when the column is NULL. -/
structure ScheduleRule where
  id : Nat
  rule_name : String
  start_hour : Nat
  start_minute : Nat
  day_of_week : Option String
  enabled : Bool
deriving DecidableEq, Repr

/-- Keys of the `RULE_FUNCTIONS` registry (scheduler.py lines 51-59).  The
mapped values are external job-body callables; only the key set matters to
`load_schedules`, and every value is a function object, hence truthy, so
the inner `if func:` test of line 333 always passes. -/
def RULE_FUNCTION_NAMES : List String :=
  ["Rule enable all except AI", "Rule disable all", "Rule enable AI",
   "Rule disable AI", "Rule stop traffic all", "Rule allow traffic all",
   "Rule auto commit"]

/-- Trigger specification passed to `scheduler.add_job`. -/
inductive Trigger where
  | cron (hour minute : Nat) (day_of_week : String)
  | interval (minutes : Nat)
deriving DecidableEq, Repr

/-- One job registered with the APScheduler instance. -/
structure JobSpec where
  id : String
  name : String
  trigger : Trigger
deriving DecidableEq, Repr

/-- Job id derived from a rule row: `f"rule_{rule_id}"` (line 334). -/
def rule_job_id (rid : Nat) : String := "rule_" ++ toString rid

/-- The job registered for one enabled rule row (lines 336-344).  The
`day_of_week or "*"` default treats NULL and the empty string as `"*"`. -/
def mk_rule_job (r : ScheduleRule) : JobSpec :=
  { id := rule_job_id r.id
    name := r.rule_name
    trigger := Trigger.cron r.start_hour r.start_minute
      (match r.day_of_week with
       | none => "*"
       | some s => if s = "" then "*" else s) }

/-- The rule-row loop of lines 330-344: for each fetched row, a job is
registered when `rule_name` is a registry key; otherwise the row is passed
over.  The second component collects the warnings logged inside this loop —
the source has no `else` branch and logs nothing for an unknown name. -/
def load_rule_rows : List ScheduleRule → List JobSpec × List String
  | [] => ([], [])
  | r :: rest =>
    let acc := load_rule_rows rest
    if r.rule_name ∈ RULE_FUNCTION_NAMES then (mk_rule_job r :: acc.1, acc.2)
    else (acc.1, acc.2)

/-- The DB-backed jobs a reload registers: the row loop applied to the
result of the `WHERE enabled = TRUE` query (line 328). -/
def db_rule_jobs (rules : List ScheduleRule) : List JobSpec :=
  (load_rule_rows (rules.filter (fun r => r.enabled))).1

/-- The four built-in jobs registered unconditionally (lines 349-385). -/
def builtin_jobs : List JobSpec :=
  [ ⟨"archive_completed_tasks", "archive_completed_tasks", Trigger.cron 2 10 "*"⟩,
    ⟨"analyze_logs", "analyze_logs", Trigger.cron 0 20 "*"⟩,
    ⟨"notify_overdue_task_feedback", "notify_overdue_task_feedback", Trigger.interval 1⟩,
    ⟨"run_adguard_pull", "run_adguard_pull", Trigger.interval 3⟩ ]

/-- Per-process scheduler state: the registered jobs and the job ids with a
cached advisory-lock connection (`_JOB_LOCKS` keys, all connections open). -/
structure SchedulerState where
  jobs : List JobSpec
  job_locks : List String
deriving DecidableEq, Repr

/-- Embedding of `_release_unused_job_locks` (lines 185-196): every cached
lease whose id is not in the active set is popped and its connection
closed.  Returns the retained cache and the list of closed ids. -/
def release_unused_job_locks (locks : List String) (active : Finset String) :
    List String × List String :=
  (locks.filter (fun j => j ∈ active), locks.filter (fun j => j ∉ active))

/-- Outcome of one `load_schedules()` run. -/
structure ReloadResult where
  state : SchedulerState
  active_job_ids : Finset String
  warnings : List String
  closed_locks : List String
deriving DecidableEq

/-- Embedding of `load_schedules` (lines 319-401).  Note the active-id set:
after registering the built-ins, the source inserts `"archive_completed_tasks"`
(line 358), `"analyze_logs"` (line 368), `"run_adguard_pull"` (line 377 —
immediately after registering the `notify_overdue_task_feedback` job), and
`"run_adguard_pull"` again (line 386); the id
`"notify_overdue_task_feedback"` is never inserted. -/
def load_schedules (rules : List ScheduleRule) (st : SchedulerState) :
    ReloadResult :=
  let db_jobs := db_rule_jobs rules
  let warns := (load_rule_rows (rules.filter (fun r => r.enabled))).2
  let active : Finset String :=
    insert "run_adguard_pull"
      (insert "run_adguard_pull"
        (insert "analyze_logs"
          (insert "archive_completed_tasks" (db_jobs.map JobSpec.id).toFinset)))
  { state :=
      { jobs := db_jobs ++ builtin_jobs
        job_locks := (release_unused_job_locks st.job_locks active).1 }
    active_job_ids := active
    warnings := warns
    closed_locks := (release_unused_job_locks st.job_locks active).2 }

/-- The two-rule store of the C3 scenario: same registry name, one row
enabled and one disabled. -/
def example_rules : List ScheduleRule :=
  [ ⟨1, "Rule disable all", 0, 0, none, true⟩,
    ⟨2, "Rule disable all", 0, 0, none, false⟩ ]

/-- C2: the callable returned by `_wrap_job` first calls
`_ensure_scheduler_leader`; if that is false it returns the skip sentinel
having made no other call (in particular the job body is never invoked,
whatever `lock_ok` says); otherwise it calls `_ensure_job_lock(jobId)`; if
that is false it returns the skip sentinel without invoking the body;
otherwise it invokes the body exactly once and returns or propagates the
body's outcome. -/
theorem wrap_job_control_flow {E A : Type} (jobId : String)
    (leader_ok lock_ok : Bool) (fn : Except E A) :
    (leader_ok = false →
      wrap_job_run jobId leader_ok lock_ok fn
        = (JobOutcome.skipped, [WrapEvent.acquireLeadership])) ∧
    (leader_ok = true → lock_ok = false →
      wrap_job_run jobId leader_ok lock_ok fn
        = (JobOutcome.skipped,
            [WrapEvent.acquireLeadership, WrapEvent.tryJobLock jobId])) ∧
    (leader_ok = true → lock_ok = true →
      wrap_job_run jobId leader_ok lock_ok fn
        = ((match fn with
            | Except.ok a => JobOutcome.ok a
            | Except.error e => JobOutcome.err e),
            [WrapEvent.acquireLeadership, WrapEvent.tryJobLock jobId,
              WrapEvent.callFn]) ∧
      ((wrap_job_run jobId leader_ok lock_ok fn).2.count WrapEvent.callFn = 1)) := by
  refine ⟨?_, ?_, ?_⟩
  · rintro rfl
    simp [wrap_job_run]
  · rintro rfl rfl
    simp [wrap_job_run]
  · rintro rfl rfl
    cases fn <;> simp [wrap_job_run, List.count_cons]

/-- Witness for `wrap_job_control_flow`: with leadership denied but the job
lock available, the wrapper skips after the single leadership probe. -/
theorem wrap_job_control_flow_witness :
    wrap_job_run (E := Unit) (A := Nat) "rule_1" false true (Except.ok 0)
      = (JobOutcome.skipped, [WrapEvent.acquireLeadership]) :=
  (wrap_job_control_flow "rule_1" false true (Except.ok 0)).1 rfl

/-- C9: the listener drain loop never calls `load_schedules` for a
notification whose payload equals this process's own instance id, and calls
it exactly once for every other payload: the reload-triggering payloads are
exactly the queued payloads different from the instance id, in order. -/
theorem listen_drain_self_suppression (instance_id : String)
    (payloads : List String) :
    listen_drain instance_id payloads
      = payloads.filter (fun p => p ≠ instance_id) ∧
    listen_drain instance_id [instance_id] = [] ∧
    (∀ p : String, p ≠ instance_id → listen_drain instance_id [p] = [p]) := by
  refine ⟨?_, ?_, ?_⟩
  · induction payloads with
    | nil => simp [listen_drain]
    | cons p rest ih =>
      by_cases hp : p = instance_id <;>
        simp [listen_drain, hp, ih, List.filter_cons]
  · simp [listen_drain]
  · intro p hp
    simp [listen_drain, hp]

/-- Witness for `listen_drain_self_suppression`: a foreign payload among two
self payloads triggers exactly one reload. -/
theorem listen_drain_self_suppression_witness :
    listen_drain "me" ["me", "other", "me"] = ["other"] := by
  have h := (listen_drain_self_suppression "me" ["me", "other", "me"]).1
  rw [h]
  rfl

/-- The rule-row loop registers exactly the rows whose name is a registry
key, one job per row, in row order, and logs no warning. -/
theorem load_rule_rows_eq (rows : List ScheduleRule) :
    load_rule_rows rows
      = ((rows.filter (fun r => r.rule_name ∈ RULE_FUNCTION_NAMES)).map mk_rule_job,
          []) := by
  induction rows with
  | nil => rfl
  | cons r rest ih =>
    by_cases hr : r.rule_name ∈ RULE_FUNCTION_NAMES <;>
      simp [load_rule_rows, ih, List.filter_cons, hr]

/-- Membership characterization of the DB-backed job list. -/
theorem mem_db_rule_jobs (rules : List ScheduleRule) (j : JobSpec) :
    j ∈ db_rule_jobs rules
      ↔ ∃ r ∈ rules, r.enabled = true ∧ r.rule_name ∈ RULE_FUNCTION_NAMES
          ∧ j = mk_rule_job r := by
  rw [db_rule_jobs, load_rule_rows_eq]
  simp only [List.mem_map, List.mem_filter, decide_eq_true_eq]
  constructor
  · rintro ⟨r, ⟨⟨hr, hen⟩, hknown⟩, hj⟩
    exact ⟨r, hr, hen, hknown, hj.symm⟩
  · rintro ⟨r, hr, hen, hknown, hj⟩
    exact ⟨r, ⟨⟨hr, hen⟩, hknown⟩, hj.symm⟩

/-- C3: a reload registers exactly one timer, with id `rule_<row id>`, for
each rule row that is enabled and whose `rule_name` is a registry key —
this is the full DB-backed job list, in row order — plus the four fixed
built-in jobs, and registers nothing for disabled rows; in particular, for
the two-row store `example_rules` the DB-backed job ids are exactly
`["rule_1"]`, so `rule_2` is absent. -/
theorem load_schedules_registered_jobs (rules : List ScheduleRule)
    (st : SchedulerState) :
    ((load_schedules rules st).state.jobs = db_rule_jobs rules ++ builtin_jobs) ∧
    (db_rule_jobs rules
        = ((rules.filter (fun r => r.enabled)).filter
            (fun r => r.rule_name ∈ RULE_FUNCTION_NAMES)).map mk_rule_job) ∧
    (∀ j : JobSpec, j ∈ db_rule_jobs rules
      ↔ ∃ r ∈ rules, r.enabled = true ∧ r.rule_name ∈ RULE_FUNCTION_NAMES
          ∧ j = mk_rule_job r) ∧
    ((db_rule_jobs example_rules).map JobSpec.id = ["rule_1"]) := by
  refine ⟨rfl, ?_, mem_db_rule_jobs rules, by decide⟩
  rw [db_rule_jobs, load_rule_rows_eq]

/-- C4 (failing input): a process whose `_JOB_LOCKS` cache holds the lease
for the still-registered built-in job `notify_overdue_task_feedback`
reloads with an empty rule store.  The job is registered by the reload, yet
its id is missing from the active-id set (line 377 of scheduler.py inserts
`"run_adguard_pull"` there instead), so `_release_unused_job_locks` closes
and evicts the lease of a job that is still scheduled — contradicting the
claim that the active set contains every registered job id and that leases
of registered ids are retained. -/
theorem load_schedules_evicts_notify_lock :
    ("notify_overdue_task_feedback"
        ∈ (load_schedules [] ⟨[], ["notify_overdue_task_feedback"]⟩).state.jobs.map
            JobSpec.id) ∧
    ("notify_overdue_task_feedback"
        ∉ (load_schedules [] ⟨[], ["notify_overdue_task_feedback"]⟩).active_job_ids) ∧
    ((load_schedules [] ⟨[], ["notify_overdue_task_feedback"]⟩).state.job_locks = []) ∧
    ((load_schedules [] ⟨[], ["notify_overdue_task_feedback"]⟩).closed_locks
        = ["notify_overdue_task_feedback"]) := by
  decide

/-- C5: reload is idempotent — with the rule store unchanged, a second
`load_schedules` run produces the same active-job-id set and the same job
list as the first, whatever scheduler state the first run started from. -/
theorem load_schedules_idempotent (rules : List ScheduleRule)
    (st : SchedulerState) :
    ((load_schedules rules (load_schedules rules st).state).active_job_ids
        = (load_schedules rules st).active_job_ids) ∧
    ((load_schedules rules (load_schedules rules st).state).state.jobs
        = (load_schedules rules st).state.jobs) :=
  ⟨rfl, rfl⟩

/-- An enabled rule row whose name is not a registry key. -/
def unknown_rule : ScheduleRule := ⟨1, "No such rule", 8, 0, none, true⟩

/-- C6 counterexample: reloading a store whose only enabled rule has an
unknown `rule_name` logs no warning at all — the warnings list is empty,
refuting the claim that such a row logs a warning — while the row is indeed
skipped (only the built-ins are registered) and the reload completes. -/
theorem load_schedules_unknown_rule_no_warning :
    ((load_schedules [unknown_rule] ⟨[], []⟩).warnings = []) ∧
    ((load_schedules [unknown_rule] ⟨[], []⟩).state.jobs = builtin_jobs) := by
  decide

/-- C6 (amended): every rule row whose `rule_name` has no entry in the
job-body registry is silently skipped — no warning is logged — without
aborting the reload: no job is registered for it, while every enabled row
with a registered name and all built-in jobs are still registered. -/
theorem load_schedules_unknown_rule_skipped (rules : List ScheduleRule)
    (st : SchedulerState) :
    ((load_schedules rules st).warnings = []) ∧
    (∀ r ∈ rules, r.enabled = true → r.rule_name ∈ RULE_FUNCTION_NAMES →
      mk_rule_job r ∈ (load_schedules rules st).state.jobs) ∧
    (∀ b ∈ builtin_jobs, b ∈ (load_schedules rules st).state.jobs) ∧
    (∀ j ∈ (load_schedules rules st).state.jobs,
      j ∈ builtin_jobs
        ∨ ∃ r ∈ rules, r.enabled = true ∧ r.rule_name ∈ RULE_FUNCTION_NAMES
            ∧ j = mk_rule_job r) := by
  have hjobs : (load_schedules rules st).state.jobs
      = db_rule_jobs rules ++ builtin_jobs := rfl
  refine ⟨?_, ?_, ?_, ?_⟩
  · show (load_rule_rows (rules.filter (fun r => r.enabled))).2 = []
    rw [load_rule_rows_eq]
  · intro r hr hen hname
    rw [hjobs, List.mem_append]
    exact Or.inl ((mem_db_rule_jobs rules _).2 ⟨r, hr, hen, hname, rfl⟩)
  · intro b hb
    rw [hjobs, List.mem_append]
    exact Or.inr hb
  · intro j hj
    rw [hjobs, List.mem_append] at hj
    rcases hj with hj | hj
    · exact Or.inr ((mem_db_rule_jobs rules j).1 hj)
    · exact Or.inl hj

/-- Witness for `load_schedules_unknown_rule_skipped`: an enabled row named
`"Rule enable AI"` (a registry key) is still registered when reloaded
alongside nothing else. -/
theorem load_schedules_unknown_rule_skipped_witness :
    mk_rule_job ⟨3, "Rule enable AI", 9, 30, none, true⟩
      ∈ (load_schedules [⟨3, "Rule enable AI", 9, 30, none, true⟩]
          ⟨[], []⟩).state.jobs :=
  (load_schedules_unknown_rule_skipped
      [⟨3, "Rule enable AI", 9, 30, none, true⟩] ⟨[], []⟩).2.1
    ⟨3, "Rule enable AI", 9, 30, none, true⟩ (by decide) rfl (by decide)

/-! ## Overdue-task feedback (`notify_overdue_task_feedback`, lines 414-461)

The job keeps two module-level variables, `_NOTIFIED_DATE` and
`_NOTIFIED_TASK_IDS`, cleared when the local calendar date changes.  For
each fetched todo row it parses the end of the `time_slot` field
(`"<start> - <end>"`, end in `%H:%M`); rows that fail to parse are skipped
by the `except (ValueError, AttributeError)` handler.  A row whose end time
has passed fires one desktop alert and its id is recorded.

The wall clock is modelled as a calendar-date string plus hour and minute.
The source compares `now < now.replace(hour=e.hour, minute=e.minute,
second=0, microsecond=0)`, and since the replaced time has zero seconds and
microseconds this comparison holds exactly when `(now.hour, now.minute)` is
lexicographically below `(e.hour, e.minute)` — minute granularity is
lossless here. -/

/-- Decimal digit value of a character, if any. -/
def digitVal (c : Char) : Option Nat :=
  if c.isDigit then some (c.toNat - 48) else none

/-- CPython `_strptime` matches `%M` with the regex alternation
`[0-5]\d|\d` and then requires the input to be exhausted (leftover data
raises ValueError).  This function returns the minute exactly when that
match-then-exhaust succeeds. -/
def parse_minute_field : List Char → Option Nat
  | [a] => digitVal a
  | [a, b] => do
      let x ← digitVal a
      let y ← digitVal b
      if x ≤ 5 then pure (10 * x + y) else none
  | _ => none

/-- The two-digit branch of the `%H` alternation `2[0-3]|[0-1]\d|\d`
followed by a literal colon and `%M`. -/
def parse_hm_two (cs : List Char) : Option (Nat × Nat) :=
  match cs with
  | a :: b :: rest => do
      let x ← digitVal a
      let y ← digitVal b
      let h := 10 * x + y
      if h ≤ 23 then
        match rest with
        | ':' :: ms => do
            let m ← parse_minute_field ms
            pure (h, m)
        | _ => none
      else none
  | _ => none

/-- The one-digit branch of the `%H` alternation followed by a literal
colon and `%M`. -/
def parse_hm_one (cs : List Char) : Option (Nat × Nat) :=
  match cs with
  | a :: ':' :: ms => do
      let h ← digitVal a
      let m ← parse_minute_field ms
      pure (h, m)
  | _ => none

/-- Embedding of `datetime.strptime(s, "%H:%M")`: the ordered regex
alternation tries the two-digit hour first and backtracks to the one-digit
branch.  (When the two-digit branch consumes two digits the one-digit
branch necessarily fails on the literal colon, so trying both and taking
the first success is exactly the regex semantics.)  Returns the parsed
(hour, minute) or `none` for ValueError. -/
def strptime_hm (cs : List Char) : Option (Nat × Nat) :=
  (parse_hm_two cs).orElse (fun _ => parse_hm_one cs)

/-- Characters removed by Python `str.strip()` (the ASCII whitespace set;
time slots contain none of the rarer Unicode whitespace). -/
def py_whitespace (c : Char) : Bool :=
  c = ' ' || c = '\t' || c = '\n' || c = '\r' || c = '\x0b' || c = '\x0c'

/-- Python `str.strip()`: drop leading and trailing whitespace. -/
def python_strip (cs : List Char) : List Char :=
  ((cs.dropWhile py_whitespace).reverse.dropWhile py_whitespace).reverse

/-- Python `str.split("-")`: split on every dash, keeping empty parts, so
the empty string yields one empty part. -/
def split_on_dash : List Char → List (List Char)
  | [] => [[]]
  | c :: rest =>
    match split_on_dash rest with
    | [] => [[c]]
    | g :: gs => if c = '-' then [] :: g :: gs else (c :: g) :: gs

/-- Embedding of lines 440-444: `_, end_str = [t.strip() for t in
time_slot.split("-")]` followed by `datetime.strptime(end_str, "%H:%M")`.
A `none` result stands for the caught AttributeError (`time_slot` NULL) or
ValueError (not exactly two `-`-separated parts, or an unparseable end
time). -/
def parse_overdue_end_time (time_slot : Option String) : Option (Nat × Nat) :=
  match time_slot with
  | none => none
  | some s =>
    match (split_on_dash s.data).map python_strip with
    | [_, end_cs] => strptime_hm end_cs
    | _ => none

/-- Wall-clock value at the granularity the job inspects: ISO calendar-date
string (`now.date().isoformat()`) plus hour and minute. -/
structure ClockTime where
  date_str : String
  hour : Nat
  minute : Nat
deriving DecidableEq, Repr

/-- One row of the query on `todo_list` (today's rows without a completion
status): id, username, time_slot, task.  `time_slot` is `none` when NULL;
empty strings are falsy in the message construction. -/
structure TodoRow where
  id : Nat
  username : String
  time_slot : Option String
  task : String
deriving DecidableEq, Repr

/-- The module-level notification dedup state: `_NOTIFIED_DATE` and
`_NOTIFIED_TASK_IDS`. -/
structure NotifyState where
  notified_date : Option String
  notified_ids : Finset Nat
deriving DecidableEq

/-- Message construction of lines 455-458, with Python truthiness (`None`
and the empty string are falsy). -/
def overdue_message (r : TodoRow) : String :=
  match r.time_slot with
  | some ts =>
    if ts ≠ "" ∧ r.task ≠ "" then ts ++ " - " ++ r.task
    else if ts ≠ "" then ts
    else if r.task ≠ "" then r.task
    else r.username
  | none => if r.task ≠ "" then r.task else r.username

/-- The row loop of lines 437-461: skip ids already notified, skip rows
whose time slot fails to parse, skip rows whose end time has not passed,
otherwise fire `send_hammerspoon_alert(message)` and record the id.  The
alert events are returned as (todo id, message) pairs in firing order,
together with the final notified-id set. -/
def notify_scan (now : ClockTime) :
    List TodoRow → Finset Nat → Finset Nat × List (Nat × String)
  | [], notified => (notified, [])
  | r :: rest, notified =>
    if r.id ∈ notified then notify_scan now rest notified
    else
      match parse_overdue_end_time r.time_slot with
      | none => notify_scan now rest notified
      | some (eh, em) =>
        if now.hour < eh ∨ (now.hour = eh ∧ now.minute < em) then
          notify_scan now rest notified
        else
          let res := notify_scan now rest (insert r.id notified)
          (res.1, (r.id, overdue_message r) :: res.2)

/-- Embedding of `notify_overdue_task_feedback` (lines 414-461): reset the
dedup state at calendar-date rollover (lines 417-420), then scan the
fetched rows.  Returns the new state and the fired alerts. -/
def notify_overdue_task_feedback (now : ClockTime) (rows : List TodoRow)
    (st : NotifyState) : NotifyState × List (Nat × String) :=
  let st1 := if st.notified_date = some now.date_str then st
             else ⟨some now.date_str, ∅⟩
  let res := notify_scan now rows st1.notified_ids
  (⟨st1.notified_date, res.1⟩, res.2)

/-- Whether a row would fire at clock `now`: its time slot parses and its
end time has passed. -/
def row_fires (now : ClockTime) (r : TodoRow) : Bool :=
  match parse_overdue_end_time r.time_slot with
  | none => false
  | some (eh, em) =>
    ! decide (now.hour < eh ∨ (now.hour = eh ∧ now.minute < em))

/-- Rows whose time slot fails to parse contribute nothing to a scan: the
scan behaves as if they were not in the query result at all. -/
theorem notify_scan_filter_unparseable (now : ClockTime) (rows : List TodoRow)
    (ids : Finset Nat) :
    notify_scan now rows ids
      = notify_scan now
          (rows.filter (fun r => (parse_overdue_end_time r.time_slot).isSome))
          ids := by
  induction rows generalizing ids with
  | nil => rfl
  | cons r rest ih =>
    by_cases hid : r.id ∈ ids
    · cases hp : parse_overdue_end_time r.time_slot with
      | none => simp [notify_scan, hid, hp, List.filter_cons, ih]
      | some p => simp [notify_scan, hid, hp, List.filter_cons, ih]
    · cases hp : parse_overdue_end_time r.time_slot with
      | none => simp [notify_scan, hid, hp, List.filter_cons, ih]
      | some p =>
        obtain ⟨eh, em⟩ := p
        by_cases hov : now.hour < eh ∨ (now.hour = eh ∧ now.minute < em) <;>
          simp [notify_scan, hid, hp, hov, List.filter_cons, ih]

/-- An id already recorded stays recorded through a scan. -/
theorem notify_scan_mem_final (now : ClockTime) (rows : List TodoRow)
    (ids : Finset Nat) (tid : Nat) (h : tid ∈ ids) :
    tid ∈ (notify_scan now rows ids).1 := by
  induction rows generalizing ids with
  | nil => simpa [notify_scan] using h
  | cons r rest ih =>
    by_cases hid : r.id ∈ ids
    · simpa [notify_scan, hid] using ih ids h
    · cases hp : parse_overdue_end_time r.time_slot with
      | none => simpa [notify_scan, hid, hp] using ih ids h
      | some p =>
        obtain ⟨eh, em⟩ := p
        by_cases hov : now.hour < eh ∨ (now.hour = eh ∧ now.minute < em)
        · simpa [notify_scan, hid, hp, hov] using ih ids h
        · simpa [notify_scan, hid, hp, hov] using
            ih (insert r.id ids) (Finset.mem_insert_of_mem h)

/-- An id already recorded fires no alert during a scan. -/
theorem notify_scan_count_eq_zero (now : ClockTime) (rows : List TodoRow)
    (ids : Finset Nat) (tid : Nat) (h : tid ∈ ids) :
    ((notify_scan now rows ids).2.countP (fun e => e.1 == tid)) = 0 := by
  induction rows generalizing ids with
  | nil => simp [notify_scan]
  | cons r rest ih =>
    by_cases hid : r.id ∈ ids
    · simpa [notify_scan, hid] using ih ids h
    · cases hp : parse_overdue_end_time r.time_slot with
      | none => simpa [notify_scan, hid, hp] using ih ids h
      | some p =>
        obtain ⟨eh, em⟩ := p
        by_cases hov : now.hour < eh ∨ (now.hour = eh ∧ now.minute < em)
        · simpa [notify_scan, hid, hp, hov] using ih ids h
        · have hr : r.id ≠ tid := fun hrt => hid (hrt ▸ h)
          have := ih (insert r.id ids) (Finset.mem_insert_of_mem h)
          simp [notify_scan, hid, hp, hov, List.countP_cons, hr, this]

/-- A scan fires at most one alert per todo id. -/
theorem notify_scan_count_le_one (now : ClockTime) (rows : List TodoRow)
    (ids : Finset Nat) (tid : Nat) :
    ((notify_scan now rows ids).2.countP (fun e => e.1 == tid)) ≤ 1 := by
  induction rows generalizing ids with
  | nil => simp [notify_scan]
  | cons r rest ih =>
    by_cases hid : r.id ∈ ids
    · simpa [notify_scan, hid] using ih ids
    · cases hp : parse_overdue_end_time r.time_slot with
      | none => simpa [notify_scan, hid, hp] using ih ids
      | some p =>
        obtain ⟨eh, em⟩ := p
        by_cases hov : now.hour < eh ∨ (now.hour = eh ∧ now.minute < em)
        · simpa [notify_scan, hid, hp, hov] using ih ids
        · by_cases hr : r.id = tid
          · subst hr
            have hz := notify_scan_count_eq_zero now rest (insert r.id ids) r.id
              (Finset.mem_insert_self r.id ids)
            simp [notify_scan, hid, hp, hov, List.countP_cons, hz]
          · simpa [notify_scan, hid, hp, hov, List.countP_cons, hr] using
              ih (insert r.id ids)

/-- An id that fired during a scan is recorded in the final set. -/
theorem notify_scan_alerted_mem (now : ClockTime) (rows : List TodoRow)
    (ids : Finset Nat) (tid : Nat)
    (h : 0 < (notify_scan now rows ids).2.countP (fun e => e.1 == tid)) :
    tid ∈ (notify_scan now rows ids).1 := by
  induction rows generalizing ids with
  | nil => simp [notify_scan] at h
  | cons r rest ih =>
    by_cases hid : r.id ∈ ids
    · rw [notify_scan] at h ⊢
      simp only [hid, if_true] at h ⊢
      exact ih ids h
    · cases hp : parse_overdue_end_time r.time_slot with
      | none =>
        rw [notify_scan] at h ⊢
        simp only [hid, if_false, hp] at h ⊢
        exact ih ids h
      | some p =>
        obtain ⟨eh, em⟩ := p
        by_cases hov : now.hour < eh ∨ (now.hour = eh ∧ now.minute < em)
        · rw [notify_scan] at h ⊢
          simp only [hid, if_false, hp, hov, if_true] at h ⊢
          exact ih ids h
        · by_cases hr : r.id = tid
          · subst hr
            simp only [notify_scan, hid, if_false, hp, hov] at h ⊢
            exact notify_scan_mem_final now rest _ _ (Finset.mem_insert_self r.id ids)
          · simp only [notify_scan, hid, if_false, hp, hov, List.countP_cons] at h ⊢
            have : ¬((r.id, overdue_message r).1 == tid) = true := by
              simpa using hr
            simp only [this, if_false, Nat.add_zero] at h
            exact ih (insert r.id ids) h

/-- If some fetched row with id `tid` would fire and `tid` is not yet
recorded, the scan fires at least one alert for `tid`. -/
theorem notify_scan_count_pos (now : ClockTime) (rows : List TodoRow)
    (ids : Finset Nat) (tid : Nat) (hnot : tid ∉ ids)
    (hex : ∃ r ∈ rows, r.id = tid ∧ row_fires now r = true) :
    0 < (notify_scan now rows ids).2.countP (fun e => e.1 == tid) := by
  induction rows generalizing ids with
  | nil => simp at hex
  | cons r rest ih =>
    obtain ⟨r0, hr0, hr0id, hr0fire⟩ := hex
    rcases List.mem_cons.1 hr0 with rfl | hr0rest
    · -- the firing row is at the head
      subst hr0id
      have hid : ¬ r0.id ∈ ids := hnot
      cases hp : parse_overdue_end_time r0.time_slot with
      | none => simp [row_fires, hp] at hr0fire
      | some p =>
        obtain ⟨eh, em⟩ := p
        simp only [row_fires, hp, Bool.not_eq_true', decide_eq_false_iff_not]
          at hr0fire
        have hstep : (notify_scan now (r0 :: rest) ids).2
            = (r0.id, overdue_message r0)
                :: (notify_scan now rest (insert r0.id ids)).2 := by
          rw [notify_scan]
          simp [hid, hp, hr0fire]
        rw [hstep, List.countP_cons]
        simp
    · by_cases hid : r.id ∈ ids
      · rw [notify_scan]
        simp only [hid, if_true]
        exact ih ids hnot ⟨r0, hr0rest, hr0id, hr0fire⟩
      · cases hp : parse_overdue_end_time r.time_slot with
        | none =>
          rw [notify_scan]
          simp only [hid, if_false, hp]
          exact ih ids hnot ⟨r0, hr0rest, hr0id, hr0fire⟩
        | some p =>
          obtain ⟨eh, em⟩ := p
          by_cases hov : now.hour < eh ∨ (now.hour = eh ∧ now.minute < em)
          · rw [notify_scan]
            simp only [hid, if_false, hp, hov, if_true]
            exact ih ids hnot ⟨r0, hr0rest, hr0id, hr0fire⟩
          · have hstep : (notify_scan now (r :: rest) ids).2
                = (r.id, overdue_message r)
                    :: (notify_scan now rest (insert r.id ids)).2 := by
              rw [notify_scan]
              simp [hid, hp, hov]
            rw [hstep, List.countP_cons]
            by_cases hr : r.id = tid
            · simp [hr]
            · have hmem : tid ∉ insert r.id ids := by
                simp only [Finset.mem_insert, not_or]
                exact ⟨fun h => hr h.symm, hnot⟩
              have := ih (insert r.id ids) hmem ⟨r0, hr0rest, hr0id, hr0fire⟩
              omega

/-- Unfolding of one `notify_overdue_task_feedback` run: the date is set to
today and the scan starts from the previous id set, cleared first when the
calendar date rolled over. -/
theorem notify_run_eq (now : ClockTime) (rows : List TodoRow)
    (st : NotifyState) :
    notify_overdue_task_feedback now rows st
      = (⟨some now.date_str,
          (notify_scan now rows
            (if st.notified_date = some now.date_str then st.notified_ids
             else ∅)).1⟩,
         (notify_scan now rows
            (if st.notified_date = some now.date_str then st.notified_ids
             else ∅)).2) := by
  by_cases hd : st.notified_date = some now.date_str <;>
    simp [notify_overdue_task_feedback, hd]

/-- C7: across two `notify_overdue_task_feedback` runs on the same calendar
day over the same query result, at most one alert fires per todo id; the
count is exactly one when some fetched row with that id is overdue and
parseable and the id is not already recorded for today; and at a
calendar-date rollover the run behaves exactly as if the recorded-id set
had been cleared, so a task may alert again the next day. -/
theorem notify_overdue_once_per_day (now now2 : ClockTime)
    (rows : List TodoRow) (st : NotifyState) (tid : Nat)
    (hday : now2.date_str = now.date_str) :
    (((notify_overdue_task_feedback now rows st).2
        ++ (notify_overdue_task_feedback now2 rows
              (notify_overdue_task_feedback now rows st).1).2).countP
          (fun e => e.1 == tid) ≤ 1) ∧
    ((st.notified_date ≠ some now.date_str ∨ tid ∉ st.notified_ids) →
      (∃ r ∈ rows, r.id = tid ∧ row_fires now r = true) →
      ((notify_overdue_task_feedback now rows st).2
          ++ (notify_overdue_task_feedback now2 rows
                (notify_overdue_task_feedback now rows st).1).2).countP
            (fun e => e.1 == tid) = 1) ∧
    (∀ nd : ClockTime, st.notified_date ≠ some nd.date_str →
      notify_overdue_task_feedback nd rows st
        = notify_overdue_task_feedback nd rows ⟨some nd.date_str, ∅⟩) := by
  have hids2 :
      (notify_overdue_task_feedback now2 rows
          (notify_overdue_task_feedback now rows st).1).2
        = (notify_scan now2 rows
            (notify_scan now rows
              (if st.notified_date = some now.date_str then st.notified_ids
               else ∅)).1).2 := by
    rw [notify_run_eq, notify_run_eq]
    simp [hday]
  have hrun1 :
      (notify_overdue_task_feedback now rows st).2
        = (notify_scan now rows
            (if st.notified_date = some now.date_str then st.notified_ids
             else ∅)).2 := by
    rw [notify_run_eq]
  refine ⟨?_, ?_, ?_⟩
  · rw [hrun1, hids2, List.countP_append]
    by_cases hpos : 0 < (notify_scan now rows
        (if st.notified_date = some now.date_str then st.notified_ids
         else ∅)).2.countP (fun e => e.1 == tid)
    · have hmem := notify_scan_alerted_mem now rows _ tid hpos
      have hz := notify_scan_count_eq_zero now2 rows _ tid hmem
      have hle := notify_scan_count_le_one now rows
        (if st.notified_date = some now.date_str then st.notified_ids else ∅) tid
      omega
    · have hle := notify_scan_count_le_one now2 rows
        (notify_scan now rows
          (if st.notified_date = some now.date_str then st.notified_ids
           else ∅)).1 tid
      omega
  · intro hfresh hex
    have hnot : tid ∉ (if st.notified_date = some now.date_str
        then st.notified_ids else ∅) := by
      by_cases hd : st.notified_date = some now.date_str
      · rcases hfresh with hfresh | hfresh
        · exact absurd hd hfresh
        · simpa [hd] using hfresh
      · simp [hd]
    have hpos := notify_scan_count_pos now rows _ tid hnot hex
    have hmem := notify_scan_alerted_mem now rows _ tid hpos
    have hz := notify_scan_count_eq_zero now2 rows _ tid hmem
    have hle := notify_scan_count_le_one now rows
      (if st.notified_date = some now.date_str then st.notified_ids else ∅) tid
    rw [hrun1, hids2, List.countP_append]
    omega
  · intro nd hnd
    rw [notify_run_eq, notify_run_eq]
    simp [hnd]

/-- Witness for `notify_overdue_once_per_day`: on a fresh day, a single
overdue row with id 1 alerts exactly once across two same-day runs. -/
theorem notify_overdue_once_per_day_witness :
    (((notify_overdue_task_feedback ⟨"2026-10-12", 10, 0⟩
          [⟨1, "kid", some "09:00 - 09:30", "math"⟩] ⟨none, ∅⟩).2
        ++ (notify_overdue_task_feedback ⟨"2026-10-12", 10, 0⟩
              [⟨1, "kid", some "09:00 - 09:30", "math"⟩]
              (notify_overdue_task_feedback ⟨"2026-10-12", 10, 0⟩
                [⟨1, "kid", some "09:00 - 09:30", "math"⟩] ⟨none, ∅⟩).1).2).countP
          (fun e => e.1 == 1) = 1) :=
  (notify_overdue_once_per_day ⟨"2026-10-12", 10, 0⟩ ⟨"2026-10-12", 10, 0⟩
      [⟨1, "kid", some "09:00 - 09:30", "math"⟩] ⟨none, ∅⟩ 1 rfl).2.1
    (Or.inl (by decide)) (by decide)

/-- C10: rows whose `time_slot` is NULL or whose dash-split end portion
fails to parse as `%H:%M` are invisible to `notify_overdue_task_feedback`:
the run behaves exactly as if those rows were absent from the query result
(so no alert ever fires for them and their ids are never recorded); in
particular when every fetched row is unparseable no alert fires and the
recorded-id set is unchanged apart from the calendar-rollover reset. -/
theorem notify_overdue_unparseable_rows_ignored (now : ClockTime)
    (rows : List TodoRow) (st : NotifyState) :
    (notify_overdue_task_feedback now rows st
      = notify_overdue_task_feedback now
          (rows.filter (fun r => (parse_overdue_end_time r.time_slot).isSome))
          st) ∧
    ((∀ r ∈ rows, parse_overdue_end_time r.time_slot = none) →
      (notify_overdue_task_feedback now rows st).2 = []
        ∧ (notify_overdue_task_feedback now rows st).1.notified_ids
            = (if st.notified_date = some now.date_str then st.notified_ids
               else ∅)) := by
  have hmain : notify_overdue_task_feedback now rows st
      = notify_overdue_task_feedback now
          (rows.filter (fun r => (parse_overdue_end_time r.time_slot).isSome))
          st := by
    rw [notify_run_eq, notify_run_eq, notify_scan_filter_unparseable]
  refine ⟨hmain, fun hall => ?_⟩
  have hfil : rows.filter
      (fun r => (parse_overdue_end_time r.time_slot).isSome) = [] := by
    rw [List.filter_eq_nil_iff]
    intro a ha
    simp [hall a ha]
  rw [hmain, hfil, notify_run_eq]
  exact ⟨rfl, rfl⟩

/-- Witness for `notify_overdue_unparseable_rows_ignored`: a single row
with a NULL time slot fires nothing. -/
theorem notify_overdue_unparseable_rows_ignored_witness :
    (notify_overdue_task_feedback ⟨"2026-10-12", 10, 0⟩
        [⟨5, "kid", none, "write"⟩] ⟨none, ∅⟩).2 = [] :=
  ((notify_overdue_unparseable_rows_ignored ⟨"2026-10-12", 10, 0⟩
      [⟨5, "kid", none, "write"⟩] ⟨none, ∅⟩).2 (by decide)).1

/-! ## Archival sweep (`archive_completed_tasks`, scheduler.py lines 586-639)

The sweep selects the rows of `long_term_goals` with `completed = TRUE AND
completed_at < now - 3 days`, returns early when none match, and otherwise
copies each selected row into `long_term_goals_his` and deletes it from the
active table by `goal_id`.  The `completed_at` column is a
microsecond-precision DateTime populated by `datetime.now(local_tz)`, so
timestamps are integers counting microseconds; the SELECT's comparison
against `now - timedelta(days=3)` is exact at that precision, while the
INSERT of line 624 formats the value with
`strftime("%Y-%m-%d %H:%M:%S")`, dropping the microsecond component, so
the history row stores the timestamp truncated to the whole second. -/

/-- One row of the active `long_term_goals` table (the columns the sweep
touches).  `completed_at` counts microseconds. -/
structure Goal where
  goal_id : Nat
  user_id : Nat
  task_text : String
  priority : Int
  completed : Bool
  completed_at : Int
  time_spent : Int
deriving DecidableEq, Repr

/-- One row of the `long_term_goals_his` history table.  `completed_at`
counts microseconds but always holds a whole-second value, because the
INSERT writes a seconds-precision string. -/
structure GoalHis where
  goal_id : Nat
  user_id : Nat
  task_text : String
  priority : Int
  completed_at : Int
  time_spent : Int
deriving DecidableEq, Repr

/-- Truncation performed by `completed_at.strftime("%Y-%m-%d %H:%M:%S")`
(line 624): the formatted string carries whole seconds only, so the stored
value is the timestamp with its microsecond component (always in
`[0, 1000000)` for a DateTime) dropped — floor division. -/
def truncate_to_second (t : Int) : Int := 1000000 * (t / 1000000)

/-- The truncation is the identity exactly on whole-second timestamps. -/
theorem truncate_to_second_of_whole (t : Int) (h : t % 1000000 = 0) :
    truncate_to_second t = t := by
  unfold truncate_to_second
  omega

/-- The history row the INSERT of lines 614-627 writes for a goal: every
field copied unchanged except `completed_at`, which line 624 formats with
`strftime("%Y-%m-%d %H:%M:%S")` and therefore truncates to the whole
second. -/
def goal_to_his (g : Goal) : GoalHis :=
  ⟨g.goal_id, g.user_id, g.task_text, g.priority,
    truncate_to_second g.completed_at, g.time_spent⟩

/-- The `three_days_ago` cutoff (line 593), in microseconds. -/
def archive_cutoff (now : Int) : Int := now - 3 * 86400 * 1000000

/-- The SELECT of lines 596-603: completed goals with
`completed_at < three_days_ago` (strict). -/
def archive_rows (now : Int) (active : List Goal) : List Goal :=
  active.filter
    (fun g => g.completed && decide (g.completed_at < archive_cutoff now))

/-- Embedding of `archive_completed_tasks`: early return when nothing is
selected (lines 606-608), otherwise insert each selected row into history
and delete it from the active table by `goal_id` (lines 611-637). -/
def archive_completed_tasks (now : Int) (active : List Goal)
    (his : List GoalHis) : List Goal × List GoalHis :=
  let rows := archive_rows now active
  if rows = [] then (active, his)
  else
    (active.filter
        (fun g => decide (g.goal_id ∉ rows.map Goal.goal_id)),
      his ++ rows.map goal_to_his)

/-- A goal completed, with no sub-second component, exactly 72 hours
before the sweep time `259200000000` µs. -/
def boundary_goal : Goal := ⟨1, 1, "finish book", 0, true, 0, 0⟩

/-- C8 counterexample, refuting the claim at two concrete inputs.
Boundary: at `now = 259200000000` µs the goal `boundary_goal` was
completed exactly 72 hours ago (`completed_at = now − 72h`), so the claim
("moves every goal completed ≥72h ago") says it is moved; the SQL
predicate `completed_at < now - 3 days` is strict, so the sweep leaves it
in the active table and writes nothing to history.  Field values: a goal
completed four days before `now` whose timestamp carries microseconds
(`completed_at = 500000`, half a second) is moved, but the claim's
"identical field values" fails — the history row stores `completed_at = 0`
because line 624 formats the value with seconds-precision `strftime`. -/
theorem archive_moves_claim_counterexample :
    (archive_completed_tasks 259200000000 [boundary_goal] []
        = ([boundary_goal], [])) ∧
    ((archive_completed_tasks 345600000000
        [⟨2, 1, "plan trip", 0, true, 500000, 0⟩] []).1 = []) ∧
    ((archive_completed_tasks 345600000000
        [⟨2, 1, "plan trip", 0, true, 500000, 0⟩] []).2
        = [⟨2, 1, "plan trip", 0, 0, 0⟩]) ∧
    (∀ h ∈ (archive_completed_tasks 345600000000
        [⟨2, 1, "plan trip", 0, true, 500000, 0⟩] []).2,
      h.completed_at ≠ 500000) := by
  decide

/-- C8 (amended): the sweep moves every goal completed strictly more than
72 hours ago — it disappears from the active table and a history row
appears whose fields are identical except `completed_at`, which is stored
truncated to the whole second (and hence identical exactly when the
timestamp has no sub-second component) — and leaves every other goal
(completed more recently, e.g. one day ago, or not completed) untouched in
the active table, with no history row written for it, assuming distinct
goal ids. -/
theorem archive_completed_tasks_spec (now : Int) (active : List Goal)
    (his : List GoalHis) (g : Goal)
    (hnodup : (active.map Goal.goal_id).Nodup) (hg : g ∈ active) :
    ((g.completed = true ∧ g.completed_at < now - 3 * 86400 * 1000000) →
      (∀ g2 ∈ (archive_completed_tasks now active his).1,
          g2.goal_id ≠ g.goal_id) ∧
      (∃ h ∈ (archive_completed_tasks now active his).2,
          h.goal_id = g.goal_id ∧ h.user_id = g.user_id
            ∧ h.task_text = g.task_text ∧ h.priority = g.priority
            ∧ h.completed_at = truncate_to_second g.completed_at
            ∧ (g.completed_at % 1000000 = 0 →
                h.completed_at = g.completed_at)
            ∧ h.time_spent = g.time_spent)) ∧
    (¬(g.completed = true ∧ g.completed_at < now - 3 * 86400 * 1000000) →
      (g ∈ (archive_completed_tasks now active his).1 ∧
        ∀ h ∈ (archive_completed_tasks now active his).2,
          h ∈ his ∨ h.goal_id ≠ g.goal_id)) := by
  have hinj := List.inj_on_of_nodup_map hnodup
  constructor
  · rintro ⟨hc, hlt⟩
    have hgrow : g ∈ archive_rows now active :=
      List.mem_filter.2 ⟨hg, by
        simp only [hc, archive_cutoff, Bool.true_and, decide_eq_true_eq]
        omega⟩
    have hne : ¬ archive_rows now active = [] := by
      intro h
      rw [h] at hgrow
      exact List.not_mem_nil g hgrow
    have hres : archive_completed_tasks now active his
        = (active.filter
            (fun x => decide
              (x.goal_id ∉ (archive_rows now active).map Goal.goal_id)),
           his ++ (archive_rows now active).map goal_to_his) := by
      simp only [archive_completed_tasks, if_neg hne]
    rw [hres]
    constructor
    · intro g2 hg2 heq
      have hg2f := (List.mem_filter.1 hg2).2
      rw [decide_eq_true_eq] at hg2f
      exact hg2f (heq ▸ List.mem_map_of_mem Goal.goal_id hgrow)
    · exact ⟨goal_to_his g,
        List.mem_append_right _ (List.mem_map_of_mem goal_to_his hgrow),
        rfl, rfl, rfl, rfl, rfl,
        fun hw => truncate_to_second_of_whole _ hw, rfl⟩
  · intro hns
    have hselg : (g.completed && decide (g.completed_at < archive_cutoff now))
        = false := by
      rw [← Bool.not_eq_true]
      intro hx
      rw [Bool.and_eq_true, decide_eq_true_eq] at hx
      exact hns ⟨hx.1, by simpa [archive_cutoff] using hx.2⟩
    have hkey : g.goal_id ∉ (archive_rows now active).map Goal.goal_id := by
      intro hmem
      obtain ⟨r, hr, hrid⟩ := List.mem_map.1 hmem
      have hrfil := List.mem_filter.1 hr
      have hrg : r = g := hinj hrfil.1 hg hrid
      rw [hrg] at hrfil
      rw [hrfil.2] at hselg
      cases hselg
    by_cases hnil : archive_rows now active = []
    · simp only [archive_completed_tasks, hnil, if_pos]
      exact ⟨hg, fun h hh => Or.inl hh⟩
    · have hres : archive_completed_tasks now active his
          = (active.filter
              (fun x => decide
                (x.goal_id ∉ (archive_rows now active).map Goal.goal_id)),
             his ++ (archive_rows now active).map goal_to_his) := by
        simp only [archive_completed_tasks, if_neg hnil]
      rw [hres]
      constructor
      · exact List.mem_filter.2 ⟨hg, by simpa using hkey⟩
      · intro h hh
        rcases List.mem_append.1 hh with hh | hh
        · exact Or.inl hh
        · obtain ⟨r, hr, hrh⟩ := List.mem_map.1 hh
          refine Or.inr ?_
          intro heq
          apply hkey
          rw [← hrh] at heq
          exact heq ▸ List.mem_map_of_mem Goal.goal_id hr

/-- Witness for `archive_completed_tasks_spec`: a goal completed, on a
whole second, seven days before the sweep is removed from the active table
and copied to history with its timestamp preserved. -/
theorem archive_completed_tasks_spec_witness :
    (∀ g2 ∈ (archive_completed_tasks 604800000000
        [⟨1, 1, "finish book", 0, true, 0, 0⟩] []).1,
        g2.goal_id ≠ (⟨1, 1, "finish book", 0, true, 0, 0⟩ : Goal).goal_id) ∧
    (∃ h ∈ (archive_completed_tasks 604800000000
        [⟨1, 1, "finish book", 0, true, 0, 0⟩] []).2,
        h.goal_id = 1 ∧ h.user_id = 1 ∧ h.task_text = "finish book"
          ∧ h.priority = 0 ∧ h.completed_at = truncate_to_second 0
          ∧ ((0 : Int) % 1000000 = 0 → h.completed_at = 0)
          ∧ h.time_spent = 0) :=
  (archive_completed_tasks_spec 604800000000
      [⟨1, 1, "finish book", 0, true, 0, 0⟩]
      [] ⟨1, 1, "finish book", 0, true, 0, 0⟩ (by decide) (by decide)).1
    ⟨rfl, by decide⟩

/-! ## Leader election (`_ensure_scheduler_leader`, scheduler.py lines 82-137)

Two processes share a coordination backend that grants the single leader
advisory-lock key to at most one open connection at a time
(`pg_try_advisory_lock`, re-entrant for the holding session, released when
the holding connection closes).  Each process keeps the module state
`_IS_SCHEDULER_LEADER` / `_SCHEDULER_LEADER_CONN`.  The backend and both
process states form one explicit world state; each
`_ensure_scheduler_leader()` call is one step on it (its decisive backend
operation, the try-lock, is atomic on the backend, and the per-process
body runs under `_SCHEDULER_LEADER_LOCK`).  The environment may close any
connection at any time (connection loss), which releases the lock the
connection holds; `get_db_connection()` failures are modelled by the
`db_ok` input of a step (the `except` path of lines 112-116 returns
False). -/

/-- The two simulated processes. -/
inductive ProcId where
  | p1
  | p2
deriving DecidableEq, Repr

/-- Per-process leadership cache: `_IS_SCHEDULER_LEADER` and
`_SCHEDULER_LEADER_CONN` (a backend connection id, `none` for `None`). -/
structure ProcState where
  is_leader : Bool
  leader_conn : Option Nat
deriving DecidableEq, Repr

/-- The world state: the backend's open connections and current holder of
the leader lock key, a fresh-connection counter, and both processes. -/
structure CoordState where
  open_conns : Finset Nat
  lock_holder : Option Nat
  next_conn : Nat
  proc_one : ProcState
  proc_two : ProcState
deriving DecidableEq

/-- Process-state lookup. -/
def getProc (s : CoordState) : ProcId → ProcState
  | ProcId.p1 => s.proc_one
  | ProcId.p2 => s.proc_two

/-- Process-state update. -/
def setProc (s : CoordState) : ProcId → ProcState → CoordState
  | ProcId.p1, ps => { s with proc_one := ps }
  | ProcId.p2, ps => { s with proc_two := ps }

/-- Closing a backend connection: it leaves the open set and any lock it
holds is released (PostgreSQL advisory-lock semantics). -/
def close_conn (s : CoordState) (c : Nat) : CoordState :=
  { s with open_conns := s.open_conns.erase c,
           lock_holder := if s.lock_holder = some c then none
                          else s.lock_holder }

/-- Opening a fresh backend connection (`get_db_connection()`). -/
def fresh_conn (s : CoordState) : Nat × CoordState :=
  (s.next_conn,
   { s with open_conns := insert s.next_conn s.open_conns,
            next_conn := s.next_conn + 1 })

/-- `SELECT pg_try_advisory_lock(key)` on connection `c`: granted when the
key is free, re-entrantly true for the current holder, false otherwise. -/
def try_advisory_lock (s : CoordState) (c : Nat) : Bool × CoordState :=
  match s.lock_holder with
  | none => (true, { s with lock_holder := some c })
  | some h => (h == c, s)

/-- The fresh-acquisition half of `_ensure_scheduler_leader` (lines
101-124): on a backend error return False with nothing retained; otherwise
open a fresh connection and try the lock — on success retain the
connection and set the leader flag, on failure close the probe connection
and return False. -/
def leader_fresh_attempt (db_ok : Bool) (p : ProcId) (s : CoordState) :
    Bool × CoordState :=
  if db_ok then
    let c := (fresh_conn s).1
    let s1 := (fresh_conn s).2
    let locked := (try_advisory_lock s1 c).1
    let s2 := (try_advisory_lock s1 c).2
    if locked then (true, setProc s2 p ⟨true, some c⟩)
    else (false, close_conn s2 c)
  else (false, s)

/-- Embedding of `_ensure_scheduler_leader` (lines 82-124) as one step by
process `p`: when the cached leader connection exists and the process
believes it is leader, probe it (`SELECT 1` succeeds exactly when the
connection is still open) and return True on success; on probe failure
close the dead connection, clear the cache and fall through; otherwise
fall through to the fresh attempt. -/
def ensure_scheduler_leader (db_ok : Bool) (p : ProcId) (s : CoordState) :
    Bool × CoordState :=
  match (getProc s p).leader_conn with
  | some c =>
    if (getProc s p).is_leader then
      if c ∈ s.open_conns then (true, s)
      else
        leader_fresh_attempt db_ok p
          (setProc (close_conn s c) p ⟨false, none⟩)
    else leader_fresh_attempt db_ok p s
  | none => leader_fresh_attempt db_ok p s

/-- Embedding of `_release_scheduler_leader` (lines 127-137): close the
retained connection, clear the cache. -/
def release_scheduler_leader (p : ProcId) (s : CoordState) : CoordState :=
  match (getProc s p).leader_conn with
  | some c => setProc (close_conn s c) p ⟨false, none⟩
  | none => setProc s p ⟨false, none⟩

/-- Environment step: the backend loses a connection (process crash,
network drop); the lock it held is released, the owning process's cache is
untouched and will fail its next probe. -/
def drop_conn (c : Nat) (s : CoordState) : CoordState := close_conn s c

/-- Both processes start as non-leaders against an empty backend. -/
def init_coord : CoordState := ⟨∅, none, 0, ⟨false, none⟩, ⟨false, none⟩⟩

/-- States reachable by any interleaving of leadership steps, releases and
connection losses. -/
inductive CoordReachable : CoordState → Prop where
  | init : CoordReachable init_coord
  | acquire (db_ok : Bool) (p : ProcId) {s : CoordState} :
      CoordReachable s →
      CoordReachable (ensure_scheduler_leader db_ok p s).2
  | release (p : ProcId) {s : CoordState} :
      CoordReachable s → CoordReachable (release_scheduler_leader p s)
  | drop (c : Nat) {s : CoordState} :
      CoordReachable s → CoordReachable (drop_conn c s)

/-- Process `p` holds the leadership lease: leader flag set and the cached
connection still open.  This is exactly the condition under which the
cached path of `_ensure_scheduler_leader` returns True. -/
def leader_live (s : CoordState) (p : ProcId) : Prop :=
  (getProc s p).is_leader = true ∧
    ∃ c, (getProc s p).leader_conn = some c ∧ c ∈ s.open_conns

/-- Inductive invariant of the coordination system. -/
structure CoordInv (s : CoordState) : Prop where
  holder_open : ∀ c, s.lock_holder = some c → c ∈ s.open_conns
  open_lt : ∀ c ∈ s.open_conns, c < s.next_conn
  conn_lt_one : ∀ c, s.proc_one.leader_conn = some c → c < s.next_conn
  conn_lt_two : ∀ c, s.proc_two.leader_conn = some c → c < s.next_conn
  distinct : ∀ c, s.proc_one.leader_conn = some c →
      s.proc_two.leader_conn ≠ some c
  link_one : s.proc_one.is_leader = true →
      ∃ c, s.proc_one.leader_conn = some c ∧
        (c ∈ s.open_conns → s.lock_holder = some c)
  link_two : s.proc_two.is_leader = true →
      ∃ c, s.proc_two.leader_conn = some c ∧
        (c ∈ s.open_conns → s.lock_holder = some c)

theorem getProc_p1 (s : CoordState) : getProc s ProcId.p1 = s.proc_one := rfl

theorem getProc_p2 (s : CoordState) : getProc s ProcId.p2 = s.proc_two := rfl

/-- Closing any connection preserves the invariant. -/
theorem coordInv_close (s : CoordState) (c : Nat) (h : CoordInv s) :
    CoordInv (close_conn s c) := by
  obtain ⟨h1, h2, h3, h4, h5, h6, h7⟩ := h
  refine ⟨?_, ?_, h3, h4, h5, ?_, ?_⟩
  · intro d hd
    by_cases hc : s.lock_holder = some c
    · simp [close_conn, hc] at hd
    · simp only [close_conn, if_neg hc] at hd
      exact Finset.mem_erase.2 ⟨fun he => hc (he ▸ hd), h1 d hd⟩
  · intro d hd
    exact h2 d (Finset.mem_of_mem_erase hd)
  · intro hl
    obtain ⟨d, hd, hlink⟩ := h6 hl
    refine ⟨d, hd, fun hmem => ?_⟩
    have hdc : d ≠ c := (Finset.mem_erase.1 hmem).1
    have hsd := hlink (Finset.mem_of_mem_erase hmem)
    have hne : s.lock_holder ≠ some c := by
      rw [hsd]
      exact fun he => hdc (Option.some.inj he)
    show (if s.lock_holder = some c then none else s.lock_holder) = some d
    rw [if_neg hne, hsd]
  · intro hl
    obtain ⟨d, hd, hlink⟩ := h7 hl
    refine ⟨d, hd, fun hmem => ?_⟩
    have hdc : d ≠ c := (Finset.mem_erase.1 hmem).1
    have hsd := hlink (Finset.mem_of_mem_erase hmem)
    have hne : s.lock_holder ≠ some c := by
      rw [hsd]
      exact fun he => hdc (Option.some.inj he)
    show (if s.lock_holder = some c then none else s.lock_holder) = some d
    rw [if_neg hne, hsd]

/-- Closing a connection and clearing one process's leadership cache
preserves the invariant. -/
theorem coordInv_clear (s : CoordState) (c : Nat) (p : ProcId)
    (h : CoordInv s) :
    CoordInv (setProc (close_conn s c) p ⟨false, none⟩) := by
  obtain ⟨h1, h2, h3, h4, h5, h6, h7⟩ := coordInv_close s c h
  cases p
  · exact ⟨h1, h2, fun d hd => (nomatch hd), h4, fun d hd => (nomatch hd),
      fun hl => (nomatch hl), h7⟩
  · exact ⟨h1, h2, h3, fun d hd => (nomatch hd),
      fun d hd hd2 => (nomatch hd2), h6, fun hl => (nomatch hl)⟩

/-- Shape of a successful fresh attempt: the lock was free, the fresh
connection takes it and is retained. -/
theorem fresh_attempt_free (p : ProcId) (s : CoordState)
    (hold : s.lock_holder = none) :
    leader_fresh_attempt true p s
      = (true,
         setProc
           ⟨insert s.next_conn s.open_conns, some s.next_conn,
             s.next_conn + 1, s.proc_one, s.proc_two⟩ p
           ⟨true, some s.next_conn⟩) := by
  simp [leader_fresh_attempt, fresh_conn, try_advisory_lock, hold]

/-- Shape of a contended fresh attempt: some other connection holds the
lock, so the probe connection is closed again and False is returned. -/
theorem fresh_attempt_held (p : ProcId) (s : CoordState) (h0 : Nat)
    (hold : s.lock_holder = some h0) (hne : h0 ≠ s.next_conn) :
    leader_fresh_attempt true p s
      = (false,
         close_conn
           ⟨insert s.next_conn s.open_conns, some h0,
             s.next_conn + 1, s.proc_one, s.proc_two⟩ s.next_conn) := by
  have hbeq : (h0 == s.next_conn) = false := by
    simp [hne]
  simp [leader_fresh_attempt, fresh_conn, try_advisory_lock, hold, hbeq]

/-- Invariant introduction on an explicit state, with the fields already
projected. -/
theorem coordInv_mk (oc : Finset Nat) (lh : Option Nat) (nc : Nat)
    (pOne pTwo : ProcState)
    (f1 : ∀ c, lh = some c → c ∈ oc)
    (f2 : ∀ c ∈ oc, c < nc)
    (f3 : ∀ c, pOne.leader_conn = some c → c < nc)
    (f4 : ∀ c, pTwo.leader_conn = some c → c < nc)
    (f5 : ∀ c, pOne.leader_conn = some c → pTwo.leader_conn ≠ some c)
    (f6 : pOne.is_leader = true →
      ∃ c, pOne.leader_conn = some c ∧ (c ∈ oc → lh = some c))
    (f7 : pTwo.is_leader = true →
      ∃ c, pTwo.leader_conn = some c ∧ (c ∈ oc → lh = some c)) :
    CoordInv ⟨oc, lh, nc, pOne, pTwo⟩ :=
  ⟨f1, f2, f3, f4, f5, f6, f7⟩

/-- A fresh attempt preserves the invariant. -/
theorem coordInv_fresh (db_ok : Bool) (p : ProcId) (s : CoordState)
    (h : CoordInv s) : CoordInv (leader_fresh_attempt db_ok p s).2 := by
  obtain ⟨h1, h2, h3, h4, h5, h6, h7⟩ := h
  cases db_ok
  case false => exact ⟨h1, h2, h3, h4, h5, h6, h7⟩
  case true =>
    cases hold : s.lock_holder with
    | none =>
      cases p
      case p1 =>
        have hst : (leader_fresh_attempt true ProcId.p1 s).2
            = ⟨insert s.next_conn s.open_conns, some s.next_conn,
                s.next_conn + 1, ⟨true, some s.next_conn⟩, s.proc_two⟩ := by
          rw [fresh_attempt_free ProcId.p1 s hold]
          rfl
        rw [hst]
        refine coordInv_mk _ _ _ _ _ ?_ ?_ ?_ ?_ ?_ ?_ ?_
        · intro d hd
          rw [← Option.some.inj hd]
          exact Finset.mem_insert_self _ _
        · intro d hd
          rcases Finset.mem_insert.1 hd with rfl | hd
          · omega
          · have := h2 d hd
            omega
        · intro d hd
          have := Option.some.inj hd
          omega
        · intro d hd
          have := h4 d hd
          omega
        · intro d hd hd2
          have := Option.some.inj hd
          have := h4 d hd2
          omega
        · intro _
          exact ⟨s.next_conn, rfl, fun _ => rfl⟩
        · intro hl
          obtain ⟨c2, hc2, hlink⟩ := h7 hl
          refine ⟨c2, hc2, fun hmem => ?_⟩
          rcases Finset.mem_insert.1 hmem with rfl | hmem
          · exact absurd (h4 _ hc2) (lt_irrefl _)
          · have hx := hlink hmem
            rw [hold] at hx
            exact (nomatch hx)
      case p2 =>
        have hst : (leader_fresh_attempt true ProcId.p2 s).2
            = ⟨insert s.next_conn s.open_conns, some s.next_conn,
                s.next_conn + 1, s.proc_one, ⟨true, some s.next_conn⟩⟩ := by
          rw [fresh_attempt_free ProcId.p2 s hold]
          rfl
        rw [hst]
        refine coordInv_mk _ _ _ _ _ ?_ ?_ ?_ ?_ ?_ ?_ ?_
        · intro d hd
          rw [← Option.some.inj hd]
          exact Finset.mem_insert_self _ _
        · intro d hd
          rcases Finset.mem_insert.1 hd with rfl | hd
          · omega
          · have := h2 d hd
            omega
        · intro d hd
          have := h3 d hd
          omega
        · intro d hd
          have := Option.some.inj hd
          omega
        · intro d hd hd2
          have := Option.some.inj hd2
          have := h3 d hd
          omega
        · intro hl
          obtain ⟨c2, hc2, hlink⟩ := h6 hl
          refine ⟨c2, hc2, fun hmem => ?_⟩
          rcases Finset.mem_insert.1 hmem with rfl | hmem
          · exact absurd (h3 _ hc2) (lt_irrefl _)
          · have hx := hlink hmem
            rw [hold] at hx
            exact (nomatch hx)
        · intro _
          exact ⟨s.next_conn, rfl, fun _ => rfl⟩
    | some h0 =>
      have hh0 : h0 ∈ s.open_conns := h1 h0 hold
      have hh0lt : h0 < s.next_conn := h2 h0 hh0
      have hne : h0 ≠ s.next_conn := by omega
      have hnif : ¬ ((some h0 : Option Nat) = some s.next_conn) := by
        simp [hne]
      have hnotin : s.next_conn ∉ s.open_conns :=
        fun hc => absurd (h2 _ hc) (lt_irrefl _)
      have hst : (leader_fresh_attempt true p s).2
          = ⟨s.open_conns, some h0, s.next_conn + 1,
              s.proc_one, s.proc_two⟩ := by
        rw [fresh_attempt_held p s h0 hold hne]
        simp [close_conn, hnif, Finset.erase_insert hnotin]
      rw [hst]
      refine coordInv_mk _ _ _ _ _ ?_ ?_ ?_ ?_ h5 ?_ ?_
      · intro d hd
        rw [← Option.some.inj hd]
        exact hh0
      · intro d hd
        have := h2 d hd
        omega
      · intro d hd
        have := h3 d hd
        omega
      · intro d hd
        have := h4 d hd
        omega
      · intro hl
        obtain ⟨c2, hc2, hlink⟩ := h6 hl
        refine ⟨c2, hc2, fun hmem => ?_⟩
        have hthis := hlink hmem
        rw [hold] at hthis
        exact hthis
      · intro hl
        obtain ⟨c2, hc2, hlink⟩ := h7 hl
        refine ⟨c2, hc2, fun hmem => ?_⟩
        have hthis := hlink hmem
        rw [hold] at hthis
        exact hthis

/-- Clearing one process's leadership cache (without touching the backend)
preserves the invariant. -/
theorem coordInv_set_false (s : CoordState) (p : ProcId) (h : CoordInv s) :
    CoordInv (setProc s p ⟨false, none⟩) := by
  obtain ⟨h1, h2, h3, h4, h5, h6, h7⟩ := h
  cases p
  · exact ⟨h1, h2, fun d hd => (nomatch hd), h4, fun d hd => (nomatch hd),
      fun hl => (nomatch hl), h7⟩
  · exact ⟨h1, h2, h3, fun d hd => (nomatch hd),
      fun d hd hd2 => (nomatch hd2), h6, fun hl => (nomatch hl)⟩

/-- One `_ensure_scheduler_leader` step preserves the invariant. -/
theorem coordInv_acquire (db_ok : Bool) (p : ProcId) (s : CoordState)
    (h : CoordInv s) : CoordInv (ensure_scheduler_leader db_ok p s).2 := by
  cases hconn : (getProc s p).leader_conn with
  | none =>
    have hred : ensure_scheduler_leader db_ok p s
        = leader_fresh_attempt db_ok p s := by
      simp only [ensure_scheduler_leader, hconn]
    rw [hred]
    exact coordInv_fresh db_ok p s h
  | some c =>
    by_cases hl : (getProc s p).is_leader = true
    · by_cases halive : c ∈ s.open_conns
      · have hred : ensure_scheduler_leader db_ok p s = (true, s) := by
          simp only [ensure_scheduler_leader, hconn, hl, if_true, halive]
        rw [hred]
        exact h
      · have hred : ensure_scheduler_leader db_ok p s
            = leader_fresh_attempt db_ok p
                (setProc (close_conn s c) p ⟨false, none⟩) := by
          simp only [ensure_scheduler_leader, hconn, hl, if_true]
          rw [if_neg halive]
        rw [hred]
        exact coordInv_fresh _ _ _ (coordInv_clear s c p h)
    · have hred : ensure_scheduler_leader db_ok p s
          = leader_fresh_attempt db_ok p s := by
        rw [Bool.not_eq_true] at hl
        simp only [ensure_scheduler_leader, hconn, hl, Bool.false_eq_true,
          if_false]
      rw [hred]
      exact coordInv_fresh db_ok p s h

/-- A release step preserves the invariant. -/
theorem coordInv_release (p : ProcId) (s : CoordState) (h : CoordInv s) :
    CoordInv (release_scheduler_leader p s) := by
  cases hconn : (getProc s p).leader_conn with
  | none =>
    have hred : release_scheduler_leader p s = setProc s p ⟨false, none⟩ := by
      simp only [release_scheduler_leader, hconn]
    rw [hred]
    exact coordInv_set_false s p h
  | some c =>
    have hred : release_scheduler_leader p s
        = setProc (close_conn s c) p ⟨false, none⟩ := by
      simp only [release_scheduler_leader, hconn]
    rw [hred]
    exact coordInv_clear s c p h

/-- Every reachable state satisfies the invariant. -/
theorem coordReachable_inv {s : CoordState} (h : CoordReachable s) :
    CoordInv s := by
  induction h with
  | init =>
    refine ⟨?_, ?_, ?_, ?_, ?_, ?_, ?_⟩
    · exact fun c hc => (nomatch hc)
    · exact fun c hc => absurd hc (Finset.not_mem_empty c)
    · exact fun c hc => (nomatch hc)
    · exact fun c hc => (nomatch hc)
    · exact fun c hc => (nomatch hc)
    · exact fun hl => (nomatch hl)
    · exact fun hl => (nomatch hl)
  | acquire db_ok p _ ih => exact coordInv_acquire db_ok p _ ih
  | release p _ ih => exact coordInv_release p _ ih
  | drop c _ ih => exact coordInv_close _ c ih

/-- Under the invariant, the two processes never hold the leadership lease
simultaneously. -/
theorem leader_live_unique (s : CoordState) (h : CoordInv s) :
    ¬ (leader_live s ProcId.p1 ∧ leader_live s ProcId.p2) := by
  rintro ⟨⟨hl1, c1, hc1, ho1⟩, ⟨hl2, c2, hc2, ho2⟩⟩
  rw [getProc_p1] at hl1 hc1
  rw [getProc_p2] at hl2 hc2
  obtain ⟨d1, hd1, hlink1⟩ := h.link_one hl1
  obtain ⟨d2, hd2, hlink2⟩ := h.link_two hl2
  have he1 : d1 = c1 := by
    rw [hd1] at hc1
    exact Option.some.inj hc1
  have he2 : d2 = c2 := by
    rw [hd2] at hc2
    exact Option.some.inj hc2
  subst he1
  subst he2
  have hh1 := hlink1 ho1
  have hh2 := hlink2 ho2
  rw [hh1] at hh2
  have hdd := Option.some.inj hh2
  rw [← hdd] at hd2
  exact h.distinct _ hd1 hd2

/-- A fresh attempt that returned True leaves the caller holding a live
lease. -/
theorem fresh_attempt_true_live (db_ok : Bool) (p : ProcId) (s : CoordState)
    (hret : (leader_fresh_attempt db_ok p s).1 = true) :
    leader_live (leader_fresh_attempt db_ok p s).2 p := by
  cases db_ok
  case false => exact absurd hret (by simp [leader_fresh_attempt])
  case true =>
    cases hold : s.lock_holder with
    | none =>
      cases p
      case p1 =>
        rw [fresh_attempt_free ProcId.p1 s hold]
        exact ⟨rfl, s.next_conn, rfl, Finset.mem_insert_self _ _⟩
      case p2 =>
        rw [fresh_attempt_free ProcId.p2 s hold]
        exact ⟨rfl, s.next_conn, rfl, Finset.mem_insert_self _ _⟩
    | some h0 =>
      by_cases hbeq : h0 = s.next_conn
      · subst hbeq
        have hst : leader_fresh_attempt true p s
            = (true,
               setProc
                 ⟨insert s.next_conn s.open_conns, some s.next_conn,
                   s.next_conn + 1, s.proc_one, s.proc_two⟩ p
                 ⟨true, some s.next_conn⟩) := by
          simp [leader_fresh_attempt, fresh_conn, try_advisory_lock, hold]
        rw [hst]
        cases p
        · exact ⟨rfl, s.next_conn, rfl, Finset.mem_insert_self _ _⟩
        · exact ⟨rfl, s.next_conn, rfl, Finset.mem_insert_self _ _⟩
      · rw [fresh_attempt_held p s h0 hold hbeq] at hret
        exact (nomatch hret)

/-- An `_ensure_scheduler_leader` call that returned True leaves the caller
holding a live lease in the post-state. -/
theorem ensure_true_live (db_ok : Bool) (p : ProcId) (s : CoordState)
    (hret : (ensure_scheduler_leader db_ok p s).1 = true) :
    leader_live (ensure_scheduler_leader db_ok p s).2 p := by
  cases hconn : (getProc s p).leader_conn with
  | none =>
    have hred : ensure_scheduler_leader db_ok p s
        = leader_fresh_attempt db_ok p s := by
      simp only [ensure_scheduler_leader, hconn]
    rw [hred] at hret ⊢
    exact fresh_attempt_true_live db_ok p s hret
  | some c =>
    by_cases hl : (getProc s p).is_leader = true
    · by_cases halive : c ∈ s.open_conns
      · have hred : ensure_scheduler_leader db_ok p s = (true, s) := by
          simp only [ensure_scheduler_leader, hconn, hl, if_true, halive]
        rw [hred]
        exact ⟨hl, c, hconn, halive⟩
      · have hred : ensure_scheduler_leader db_ok p s
            = leader_fresh_attempt db_ok p
                (setProc (close_conn s c) p ⟨false, none⟩) := by
          simp only [ensure_scheduler_leader, hconn, hl, if_true]
          rw [if_neg halive]
        rw [hred] at hret ⊢
        exact fresh_attempt_true_live _ _ _ hret
    · have hred : ensure_scheduler_leader db_ok p s
          = leader_fresh_attempt db_ok p s := by
        rw [Bool.not_eq_true] at hl
        simp only [ensure_scheduler_leader, hconn, hl, Bool.false_eq_true,
          if_false]
      rw [hred] at hret ⊢
      exact fresh_attempt_true_live _ _ _ hret

/-- A fresh attempt fails while another connection holds the lock. -/
theorem fresh_attempt_false_of_held (db_ok : Bool) (p : ProcId)
    (s : CoordState) (h0 : Nat) (hold : s.lock_holder = some h0)
    (hne : h0 ≠ s.next_conn) :
    (leader_fresh_attempt db_ok p s).1 = false := by
  cases db_ok
  case false => rfl
  case true => rw [fresh_attempt_held p s h0 hold hne]

/-- While one process holds a live lease, the other process's
`_ensure_scheduler_leader` returns False. -/
theorem ensure_false_of_other_live (db_ok : Bool) (p q : ProcId)
    (s : CoordState) (hInv : CoordInv s) (hpq : p ≠ q)
    (hlive : leader_live s p) :
    (ensure_scheduler_leader db_ok q s).1 = false := by
  obtain ⟨hpl, cp, hcp, hcpo⟩ := hlive
  have hlink : s.lock_holder = some cp := by
    cases p
    · obtain ⟨d, hd, hli⟩ := hInv.link_one hpl
      rw [getProc_p1, hd] at hcp
      have hdc : d = cp := Option.some.inj hcp
      subst hdc
      exact hli hcpo
    · obtain ⟨d, hd, hli⟩ := hInv.link_two hpl
      rw [getProc_p2, hd] at hcp
      have hdc : d = cp := Option.some.inj hcp
      subst hdc
      exact hli hcpo
  have hcplt : cp < s.next_conn := hInv.open_lt cp hcpo
  cases hqconn : (getProc s q).leader_conn with
  | none =>
    have hred : ensure_scheduler_leader db_ok q s
        = leader_fresh_attempt db_ok q s := by
      simp only [ensure_scheduler_leader, hqconn]
    rw [hred]
    exact fresh_attempt_false_of_held db_ok q s cp hlink (by omega)
  | some cq =>
    by_cases hql : (getProc s q).is_leader = true
    · by_cases hqa : cq ∈ s.open_conns
      · exfalso
        have hqlive : leader_live s q := ⟨hql, cq, hqconn, hqa⟩
        have hplive : leader_live s p := ⟨hpl, cp, hcp, hcpo⟩
        cases p <;> cases q
        · exact hpq rfl
        · exact leader_live_unique s hInv ⟨hplive, hqlive⟩
        · exact leader_live_unique s hInv ⟨hqlive, hplive⟩
        · exact hpq rfl
      · have hne2 : cp ≠ cq := fun he => hqa (he ▸ hcpo)
        have hred : ensure_scheduler_leader db_ok q s
            = leader_fresh_attempt db_ok q
                (setProc (close_conn s cq) q ⟨false, none⟩) := by
          simp only [ensure_scheduler_leader, hqconn, hql, if_true]
          rw [if_neg hqa]
        rw [hred]
        have hnif : ¬ (s.lock_holder = some cq) := by
          rw [hlink]
          exact fun he => hne2 (Option.some.inj he)
        have hold2 : (setProc (close_conn s cq) q
            ⟨false, none⟩).lock_holder = some cp := by
          cases q <;>
            · show (if s.lock_holder = some cq then none
                    else s.lock_holder) = some cp
              rw [if_neg hnif]
              exact hlink
        have hnext2 : (setProc (close_conn s cq) q
            ⟨false, none⟩).next_conn = s.next_conn := by
          cases q <;> rfl
        apply fresh_attempt_false_of_held db_ok q _ cp hold2
        rw [hnext2]
        omega
    · have hred : ensure_scheduler_leader db_ok q s
          = leader_fresh_attempt db_ok q s := by
        rw [Bool.not_eq_true] at hql
        simp only [ensure_scheduler_leader, hqconn, hql, Bool.false_eq_true,
          if_false]
      rw [hred]
      exact fresh_attempt_false_of_held db_ok q s cp hlink (by omega)

/-- C1: against a backend granting the leader lock key to at most one open
connection (as the model's `try_advisory_lock` enforces), two processes
never both hold the leadership lease: in every reachable state the two
leases are never simultaneously live, and whenever one process's
`AcquireLeadership` just returned true — via its live cached connection or
a fresh try-acquire — the other process's call from the resulting state
returns false, whatever its backend connectivity. -/
theorem scheduler_leader_mutual_exclusion (s : CoordState) (p q : ProcId)
    (db1 db2 : Bool) (hreach : CoordReachable s) (hpq : p ≠ q) :
    (¬ (leader_live s p ∧ leader_live s q)) ∧
    ((ensure_scheduler_leader db1 p s).1 = true →
      (ensure_scheduler_leader db2 q
        (ensure_scheduler_leader db1 p s).2).1 = false) := by
  have hInv := coordReachable_inv hreach
  constructor
  · rintro ⟨hp, hq⟩
    cases p <;> cases q
    · exact hpq rfl
    · exact leader_live_unique s hInv ⟨hp, hq⟩
    · exact leader_live_unique s hInv ⟨hq, hp⟩
    · exact hpq rfl
  · intro hret
    have hInv2 : CoordInv (ensure_scheduler_leader db1 p s).2 :=
      coordInv_acquire db1 p s hInv
    have hlive := ensure_true_live db1 p s hret
    exact ensure_false_of_other_live db2 p q _ hInv2 hpq hlive

/-- Witness for `scheduler_leader_mutual_exclusion`: from the initial
state, process one acquires leadership; process two's attempt then
returns false. -/
theorem scheduler_leader_mutual_exclusion_witness :
    (ensure_scheduler_leader true ProcId.p2
      (ensure_scheduler_leader true ProcId.p1 init_coord).2).1 = false :=
  (scheduler_leader_mutual_exclusion init_coord ProcId.p1 ProcId.p2 true true
    CoordReachable.init (by decide)).2 (by decide)

end SafeFamily
